import Mathlib

/-!
Verification of the Textract invoice-processing pipeline of this repository
against its natural-language specification.

Modelling conventions (shallow embedding of the Python source):
* Python `Decimal` values and the floats used in `price_utils.py` are modelled
  as exact rationals (`ℚ`).  `Decimal`'s 28-significant-digit context rounding
  of non-terminating divisions is outside the model; every concrete value used
  in a theorem below is exactly representable.
* `None` / optional values are modelled with `Option`; Python truthiness of a
  numeric field (`if quantity:`) is `some q` with `q ≠ 0`, of a string field
  `some s` with `s ≠ ""`.
* Fallible code (a Python exception reaching the modelled boundary) is
  modelled with `Except String`.
* Strings are processed as ASCII character lists, which covers every input
  exercised by the claims.
-/

/-! ## src/services/ml_services/price_utils.py -/

/-- Python 3 `round` on a rational: round half to even (banker's rounding).
`price_utils._round_to_nearest` applies it to `price_float / nearest`. -/
def pyRound (q : ℚ) : ℤ :=
  let f := ⌊q⌋
  let r := q - f
  if r < 1/2 then f
  else if 1/2 < r then f + 1
  else if Even f then f else f + 1

/-- `price_utils._round_to_nearest(price, nearest, always_up)`:
`ceil(price/nearest)*nearest` when `always_up`, else Python
`round(price/nearest)*nearest`. -/
def round_to_nearest (price : ℚ) (nearest : ℤ) (alwaysUp : Bool) : ℚ :=
  if alwaysUp then ((⌈price / (nearest : ℚ)⌉ * nearest : ℤ) : ℚ)
  else ((pyRound (price / (nearest : ℚ)) * nearest : ℤ) : ℚ)

/-- `price_utils.round_price_colombian`.  `None` yields `Decimal('0')`;
otherwise the tier is selected on the numeric value. -/
def round_price_colombian : Option ℚ → ℚ
  | none => 0
  | some price =>
    if 10000 ≤ price then round_to_nearest price 1000 true
    else if 1000 ≤ price then round_to_nearest price 500 false
    else if 100 ≤ price then round_to_nearest price 100 false
    else round_to_nearest price 50 false

lemma pyRound_nonneg (q : ℚ) (h : 0 ≤ q) : 0 ≤ pyRound q := by
  have hf : 0 ≤ ⌊q⌋ := Int.le_floor.2 (by simpa using h)
  unfold pyRound
  dsimp only
  split
  · exact hf
  · split
    · omega
    · split
      · exact hf
      · omega

/-- C1: the tiered Colombian rounding rule, evaluated on the code.  The code
agrees with the claim on seven of the nine quoted values but returns 400 for
450 (Python `round` ties to even, so `round(4.5) = 4`) and 100 for 130
(130 falls in the `≥ 100` tier and rounds to the nearest 100), contradicting
the claimed `round(450)=500` and `round(130)=150` — values that the
function's own docstring and its `test_price_rounding` table also expect. -/
theorem C1_round_price_code_eval :
    round_price_colombian (some 10800) = 11000 ∧
    round_price_colombian (some 15300) = 16000 ∧
    round_price_colombian (some 9800) = 10000 ∧
    round_price_colombian (some 1300) = 1500 ∧
    round_price_colombian (some 1200) = 1000 ∧
    round_price_colombian (some 450) = 400 ∧
    round_price_colombian (some 180) = 200 ∧
    round_price_colombian (some 80) = 100 ∧
    round_price_colombian (some 130) = 100 ∧
    (400 : ℚ) ≠ 500 ∧ (100 : ℚ) ≠ 150 := by
  have h1 : ⌈(54:ℚ)/5⌉ = (11:ℤ) := by norm_num [Int.ceil_eq_iff]
  have h2 : ⌈(153:ℚ)/10⌉ = (16:ℤ) := by norm_num [Int.ceil_eq_iff]
  refine ⟨?_, ?_, ?_, ?_, ?_, ?_, ?_, ?_, ?_, by norm_num, by norm_num⟩ <;>
    norm_num [round_price_colombian, round_to_nearest, pyRound, Int.even_iff, h1, h2]

/-- C9 counterexample: a negative numeric input is non-null, yet the result
is negative: `round_price_colombian(-100) = Decimal('-100') < 0`. -/
theorem C9_negative_input_counterexample :
    round_price_colombian (some (-100)) = -100 ∧ (-100 : ℚ) < 0 := by
  constructor
  · norm_num [round_price_colombian, round_to_nearest, pyRound, Int.even_iff]
  · norm_num

/-- C9 (amended): `round_price_colombian(None) = Decimal('0')`; every call
with a numeric input returns an integral Decimal, and the result is
non-negative whenever the input is non-negative (a negative input can return
a negative price, see the counterexample). -/
theorem C9_none_and_nonneg_integral :
    round_price_colombian none = 0 ∧
    (∀ p : ℚ, ∃ n : ℤ, round_price_colombian (some p) = (n : ℚ)) ∧
    (∀ p : ℚ, 0 ≤ p → 0 ≤ round_price_colombian (some p)) := by
  have hT : ∀ (p : ℚ) (n : ℤ),
      round_to_nearest p n true = ((⌈p / (n:ℚ)⌉ * n : ℤ) : ℚ) := by
    intro p n
    simp [round_to_nearest]
  have hF : ∀ (p : ℚ) (n : ℤ),
      round_to_nearest p n false = ((pyRound (p / (n:ℚ)) * n : ℤ) : ℚ) := by
    intro p n
    simp [round_to_nearest]
  refine ⟨rfl, ?_, ?_⟩
  · intro p
    simp only [round_price_colombian]
    split_ifs
    · exact ⟨_, hT p 1000⟩
    · exact ⟨_, hF p 500⟩
    · exact ⟨_, hF p 100⟩
    · exact ⟨_, hF p 50⟩
  · intro p hp
    have key : ∀ n : ℤ, 0 < n → (0:ℚ) ≤ round_to_nearest p n true ∧
        (0:ℚ) ≤ round_to_nearest p n false := by
      intro n hn
      have hq : (0:ℚ) ≤ p / (n:ℚ) := by
        apply div_nonneg hp
        exact_mod_cast hn.le
      constructor
      · rw [hT]
        have h1 : 0 ≤ ⌈p / (n:ℚ)⌉ := Int.ceil_nonneg hq
        have : 0 ≤ (⌈p / (n:ℚ)⌉ * n : ℤ) := mul_nonneg h1 hn.le
        exact_mod_cast this
      · rw [hF]
        have h1 : 0 ≤ pyRound (p / (n:ℚ)) := pyRound_nonneg _ hq
        have : 0 ≤ (pyRound (p / (n:ℚ)) * n : ℤ) := mul_nonneg h1 hn.le
        exact_mod_cast this
    simp only [round_price_colombian]
    split_ifs
    · exact (key 1000 (by norm_num)).1
    · exact (key 500 (by norm_num)).2
    · exact (key 100 (by norm_num)).2
    · exact (key 50 (by norm_num)).2

/-- C9 witness: the amended theorem applied at the concrete input 9800. -/
theorem C9_none_and_nonneg_integral_witness :
    (∃ n : ℤ, round_price_colombian (some 9800) = (n : ℚ)) ∧
    0 ≤ round_price_colombian (some 9800) :=
  ⟨C9_none_and_nonneg_integral.2.1 9800,
   C9_none_and_nonneg_integral.2.2 9800 (by norm_num)⟩

/-! ## Decimal-string parsing

`textract_service._parse_decimal` and `textract_enhancer._clean_decimal_field`
both turn an OCR string into a `Decimal` (here `Option ℚ`), but by different
separator rules.  Strings are processed as ASCII character lists; Python's
`Decimal(<string>)` constructor is modelled for plain decimal numerals
(optional sign, digits, at most one point — the only shapes these call sites
can produce), failing (`None` after the caller's `except`) on anything else.
-/

/-- The whitespace class of Python's `\s` and `str.strip` (ASCII range). -/
def isPySpace (c : Char) : Bool :=
  c = ' ' || c = '\t' || c = '\n' || c = '\r' || c = '\x0b' || c = '\x0c'

/-- `re.sub(r'[\$\s]', '', s)`: drop currency symbols and whitespace. -/
def removeCurrencyWs (cs : List Char) : List Char :=
  cs.filter (fun c => !(c = '$' || isPySpace c))

/-- `str.strip()` on a character list. -/
def pyStrip (cs : List Char) : List Char :=
  ((cs.dropWhile isPySpace).reverse.dropWhile isPySpace).reverse

/-- Numeric value of a digit string (most significant first). -/
def digitsToNat (cs : List Char) : ℕ :=
  cs.foldl (fun a c => 10 * a + (c.toNat - 48)) 0

/-- Sign of the numeral. -/
def parseDecNeg (cs : List Char) : Bool :=
  if cs.head? = some '-' then true else false

/-- The numeral with an optional leading sign removed. -/
def parseDecBody (cs : List Char) : List Char :=
  if cs.head? = some '-' ∨ cs.head? = some '+' then cs.tail else cs

/-- Integer and fraction digit groups of an unsigned numeral, or `none` when
it is not of the form `digits [ '.' digits ]` with at least one digit. -/
def parseDecTail (body : List Char) : Option (List Char × List Char) :=
  if body.drop (body.takeWhile Char.isDigit).length = [] then
    if body.takeWhile Char.isDigit = [] then none
    else some (body.takeWhile Char.isDigit, [])
  else if (body.drop (body.takeWhile Char.isDigit).length).head? = some '.' then
    if (∀ c ∈ (body.drop (body.takeWhile Char.isDigit).length).tail, c.isDigit) ∧
        (body.takeWhile Char.isDigit ≠ [] ∨
          (body.drop (body.takeWhile Char.isDigit).length).tail ≠ []) then
      some (body.takeWhile Char.isDigit,
        (body.drop (body.takeWhile Char.isDigit).length).tail)
    else none
  else none

/-- Syntactic decomposition of a plain decimal numeral (optional sign, digits
with at most one point, at least one digit): sign, integer digits, fraction
digits.  `none` models `Decimal(s)` raising `InvalidOperation`. -/
def parseDecParts (cs : List Char) : Option (Bool × List Char × List Char) :=
  (parseDecTail (parseDecBody cs)).map (fun p => (parseDecNeg cs, p.1, p.2))

/-- The rational denoted by a decomposed decimal numeral. -/
def partsToRat : Bool × List Char × List Char → ℚ
  | (neg, ip, fp) =>
    (if neg then (-1 : ℚ) else 1) *
      ((digitsToNat ip : ℚ) + (digitsToNat fp : ℚ) / (10 ^ fp.length : ℚ))

/-- `Decimal(s)` for a plain decimal numeral. -/
def parseDecimalString (cs : List Char) : Option ℚ :=
  (parseDecParts cs).map partsToRat

/-- Do the next three characters exist and are they all digits?  This is the
lookahead `(?=\d{3})` of `_parse_decimal`'s separator-stripping regex. -/
def next3Digits : List Char → Bool
  | a :: b :: c :: _ => a.isDigit && b.isDigit && c.isDigit
  | _ => false

/-- `re.sub(r'[,.](?=\d{3})', '', s)`: delete every `,` or `.` immediately
followed by three digits (the lookahead inspects the original string). -/
def stripSepBefore3Digits : List Char → List Char
  | [] => []
  | c :: rest =>
    if (c = ',' || c = '.') && next3Digits rest then stripSepBefore3Digits rest
    else c :: stripSepBefore3Digits rest

/-- The string-rewriting part of `textract_service._parse_decimal`: strip
`$`/whitespace, delete separators followed by three digits, then turn the
remaining commas into points. -/
def textractCleanSelect (cs : List Char) : List Char :=
  (stripSepBefore3Digits (removeCurrencyWs cs)).map
    (fun c => if c = ',' then '.' else c)

/-- `textract_service._parse_decimal`: empty input is falsy and yields `None`;
otherwise rewrite the string and feed it to `Decimal`. -/
def textract_parse_decimal (s : String) : Option ℚ :=
  if s = "" then none
  else parseDecimalString (textractCleanSelect s.data)

/-- `str.split('.')` on a character list: groups between points, with empty
groups kept. -/
def splitOnDot : List Char → List (List Char)
  | [] => [[]]
  | c :: rest =>
    if c = '.' then [] :: splitOnDot rest
    else
      match splitOnDot rest with
      | [] => [[c]]
      | g :: gs => (c :: g) :: gs

/-- The string-rewriting part of `textract_enhancer._clean_decimal_field`
after `str(value).strip()` and the `[\$\s]` strip: the Colombian separator
disambiguation.  When both `,` and `.` occur, every `.` is removed and the
comma becomes the point; when only `.` occurs more than once, all but the
last are removed unless the final group is not 2 digits long, in which case
all are removed. -/
def cleanDecimalSelect (cs0 : List Char) : List Char :=
  let cs := removeCurrencyWs (pyStrip cs0)
  if ',' ∈ cs ∧ '.' ∈ cs then
    (cs.filter (fun c => !(c = '.'))).map (fun c => if c = ',' then '.' else c)
  else if 1 < cs.count '.' then
    let parts := splitOnDot cs
    let lastPart := parts.getLast?.getD []
    if lastPart.length = 2 then (parts.dropLast).flatten ++ '.' :: lastPart
    else parts.flatten
  else cs

/-- `textract_enhancer._clean_decimal_field` on a string value. -/
def clean_decimal_field (s : String) : Option ℚ :=
  parseDecimalString (cleanDecimalSelect s.data)

lemma isPySpace_eq_false_of_isDigit {c : Char} (h : c.isDigit = true) :
    isPySpace c = false := by
  by_contra hb
  rw [Bool.not_eq_false] at hb
  have hc : c = ' ' ∨ c = '\t' ∨ c = '\n' ∨ c = '\r' ∨ c = '\x0b' ∨ c = '\x0c' := by
    simpa [isPySpace, or_assoc] using hb
  rcases hc with h1 | h1 | h1 | h1 | h1 | h1 <;> (subst h1; exact absurd h (by decide))

lemma dropWhile_eq_self_of_false {p : Char → Bool} (cs : List Char)
    (h : ∀ c ∈ cs, p c = false) : cs.dropWhile p = cs := by
  cases cs with
  | nil => rfl
  | cons a l => simp [List.dropWhile_cons, h a (List.mem_cons_self a l)]

lemma parseDecParts_digits (cs : List Char) (h0 : cs ≠ [])
    (h : ∀ c ∈ cs, c.isDigit = true) :
    parseDecParts cs = some (false, cs, []) := by
  cases cs with
  | nil => exact absurd rfl h0
  | cons a l =>
    have ha : a.isDigit = true := h a (List.mem_cons_self a l)
    have hm : a ≠ '-' := fun e => by rw [e] at ha; exact absurd ha (by decide)
    have hp : a ≠ '+' := fun e => by rw [e] at ha; exact absurd ha (by decide)
    have htake : (a :: l).takeWhile Char.isDigit = a :: l :=
      List.takeWhile_eq_self_iff.mpr h
    have hbody : parseDecBody (a :: l) = a :: l := by
      simp [parseDecBody, hm, hp]
    have hneg : parseDecNeg (a :: l) = false := by
      simp [parseDecNeg, hm]
    have htail : parseDecTail (a :: l) = some (a :: l, []) := by
      rw [parseDecTail, htake, List.drop_length]
      simp
    rw [parseDecParts, hbody, htail, hneg]
    rfl

/-- On an all-digit, nonempty numeral the `Decimal` model returns its value. -/
lemma parseDecimalString_digits (cs : List Char) (h0 : cs ≠ [])
    (h : ∀ c ∈ cs, c.isDigit = true) :
    parseDecimalString cs = some ((digitsToNat cs : ℚ)) := by
  rw [parseDecimalString, parseDecParts_digits cs h0 h]
  simp [partsToRat, digitsToNat]

/-- A nonempty all-digit string passes `_clean_decimal_field` unchanged. -/
lemma cleanDecimalSelect_digits (cs : List Char)
    (h : ∀ c ∈ cs, c.isDigit = true) :
    cleanDecimalSelect cs = cs := by
  have hnotws : ∀ c ∈ cs, isPySpace c = false := fun c hc =>
    isPySpace_eq_false_of_isDigit (h c hc)
  have hstrip : pyStrip cs = cs := by
    have h1 : cs.dropWhile isPySpace = cs := dropWhile_eq_self_of_false cs hnotws
    have h2 : cs.reverse.dropWhile isPySpace = cs.reverse :=
      dropWhile_eq_self_of_false cs.reverse
        (fun c hc => hnotws c (List.mem_reverse.mp hc))
    rw [pyStrip, h1, h2, List.reverse_reverse]
  have hclean : removeCurrencyWs cs = cs := by
    rw [removeCurrencyWs, List.filter_eq_self]
    intro a ha
    have haD := h a ha
    have : a ≠ '$' := fun e => by rw [e] at haD; exact absurd haD (by decide)
    simp [this, hnotws a ha]
  have hmem : ',' ∉ cs := fun hm => absurd (h ',' hm) (by decide)
  have hdot : '.' ∉ cs := fun hm => absurd (h '.' hm) (by decide)
  have hcount : cs.count '.' = 0 := List.count_eq_zero.mpr hdot
  rw [cleanDecimalSelect]
  simp only [hstrip, hclean]
  rw [if_neg (by tauto), if_neg (by rw [hcount]; omega)]

/-- C2 counterexample.  The claim's rules fail on both implementations:
`_clean_decimal_field` treats the single point of `"50.000"` as a decimal
point and returns 50, not the claimed 50000; and in `_parse_decimal` the
string `"12,34.56"`, in which both separators occur, is not parsed with the
rightmost separator as the decimal point (that reading gives 1234.56) but
returns `None`. -/
theorem C2_separator_counterexample :
    clean_decimal_field "50.000" = some 50 ∧ some (50 : ℚ) ≠ some (50000 : ℚ) ∧
    textract_parse_decimal "12,34.56" = none ∧
    (none : Option ℚ) ≠ some (123456 / 100 : ℚ) := by
  refine ⟨?_, by norm_num, ?_, by simp⟩
  · have h : parseDecParts (cleanDecimalSelect "50.000".data)
        = some (false, ['5', '0'], ['0', '0', '0']) := by decide
    have d1 : digitsToNat ['5', '0'] = 50 := by decide
    have d2 : digitsToNat ['0', '0', '0'] = 0 := by decide
    simp [clean_decimal_field, parseDecimalString, h, partsToRat, d1, d2]
  · have h : parseDecParts (textractCleanSelect "12,34.56".data) = none := by decide
    simp [textract_parse_decimal, parseDecimalString, h]

/-- C2 (amended): `_clean_decimal_field` treats `,` as the decimal point
whenever both separators occur (regardless of position); with only repeated
`.` all but the last are thousands separators unless the final group is not
2 digits long, in which case all are; a lone `.` is a decimal point — so
`"1.234.567,89" → 1234567.89` but `"50.000" → 50`.  The service-level
`_parse_decimal` instead deletes any separator followed by three digits and
then maps `,` to `.`, giving `"50.000" → 50000`.  Plain digit strings parse
to their value in both. -/
theorem C2_separator_rules :
    (∀ s : String, s.data ≠ [] → (∀ c ∈ s.data, c.isDigit = true) →
        clean_decimal_field s = some ((digitsToNat s.data : ℚ))) ∧
    clean_decimal_field "1.234.567,89" = some (123456789 / 100 : ℚ) ∧
    clean_decimal_field "1,234.56" = some (123456 / 100000 : ℚ) ∧
    clean_decimal_field "1.234.56" = some (123456 / 100 : ℚ) ∧
    clean_decimal_field "1.23.456" = some 123456 ∧
    clean_decimal_field "50.000" = some 50 ∧
    textract_parse_decimal "50.000" = some 50000 ∧
    textract_parse_decimal "1.234.567,89" = some (123456789 / 100 : ℚ) := by
  refine ⟨?_, ?_, ?_, ?_, ?_, ?_, ?_, ?_⟩
  · intro s h0 h
    rw [clean_decimal_field, cleanDecimalSelect_digits s.data h]
    exact parseDecimalString_digits s.data h0 h
  · have h : parseDecParts (cleanDecimalSelect "1.234.567,89".data)
        = some (false, ['1', '2', '3', '4', '5', '6', '7'], ['8', '9']) := by decide
    have d1 : digitsToNat ['1', '2', '3', '4', '5', '6', '7'] = 1234567 := by decide
    have d2 : digitsToNat ['8', '9'] = 89 := by decide
    simp [clean_decimal_field, parseDecimalString, h, partsToRat, d1, d2]
    norm_num
  · have h : parseDecParts (cleanDecimalSelect "1,234.56".data)
        = some (false, ['1'], ['2', '3', '4', '5', '6']) := by decide
    have d1 : digitsToNat ['1'] = 1 := by decide
    have d2 : digitsToNat ['2', '3', '4', '5', '6'] = 23456 := by decide
    simp [clean_decimal_field, parseDecimalString, h, partsToRat, d1, d2]
    norm_num
  · have h : parseDecParts (cleanDecimalSelect "1.234.56".data)
        = some (false, ['1', '2', '3', '4'], ['5', '6']) := by decide
    have d1 : digitsToNat ['1', '2', '3', '4'] = 1234 := by decide
    have d2 : digitsToNat ['5', '6'] = 56 := by decide
    simp [clean_decimal_field, parseDecimalString, h, partsToRat, d1, d2]
    norm_num
  · have h : parseDecParts (cleanDecimalSelect "1.23.456".data)
        = some (false, ['1', '2', '3', '4', '5', '6'], []) := by decide
    have d1 : digitsToNat ['1', '2', '3', '4', '5', '6'] = 123456 := by decide
    have d2 : digitsToNat ([] : List Char) = 0 := by decide
    simp [clean_decimal_field, parseDecimalString, h, partsToRat, d1, d2]
  · have h : parseDecParts (cleanDecimalSelect "50.000".data)
        = some (false, ['5', '0'], ['0', '0', '0']) := by decide
    have d1 : digitsToNat ['5', '0'] = 50 := by decide
    have d2 : digitsToNat ['0', '0', '0'] = 0 := by decide
    simp [clean_decimal_field, parseDecimalString, h, partsToRat, d1, d2]
  · have h : parseDecParts (textractCleanSelect "50.000".data)
        = some (false, ['5', '0', '0', '0', '0'], []) := by decide
    have d1 : digitsToNat ['5', '0', '0', '0', '0'] = 50000 := by decide
    have d2 : digitsToNat ([] : List Char) = 0 := by decide
    simp [textract_parse_decimal, parseDecimalString, h, partsToRat, d1, d2]
  · have h : parseDecParts (textractCleanSelect "1.234.567,89".data)
        = some (false, ['1', '2', '3', '4', '5', '6', '7'], ['8', '9']) := by decide
    have d1 : digitsToNat ['1', '2', '3', '4', '5', '6', '7'] = 1234567 := by decide
    have d2 : digitsToNat ['8', '9'] = 89 := by decide
    simp [textract_parse_decimal, parseDecimalString, h, partsToRat, d1, d2]
    norm_num

/-- C2 witness: the all-digit clause of the amended theorem at `"42"`. -/
theorem C2_separator_rules_witness : clean_decimal_field "42" = some 42 := by
  have h := C2_separator_rules.1 "42" (by decide) (by decide)
  have d : digitsToNat "42".data = 42 := by decide
  rw [d] at h
  simpa using h

/-! ## The Textract block graph and `_parse_table`

`textract_service` walks the block graph returned by the OCR engine.  A block
is modelled with the fields the parsing code reads (`Id`, `BlockType`,
`Text`, `RowIndex`, `ColumnIndex`, `Relationships`); `block.get('RowIndex', 0)`
defaults are the field defaults. -/

structure Block where
  id : String
  blockType : String
  text : String := ""
  rowIndex : ℕ := 0
  colIndex : ℕ := 0
  relationships : List (String × List String) := []
deriving DecidableEq

/-- `block_map[id]` lookup (ids are unique in a Textract response). -/
def blockLookup (m : List Block) (i : String) : Option Block :=
  m.find? (fun b => b.id == i)

/-- The ids listed by a block's relationships of the given type. -/
def relationIds (b : Block) (ty : String) : List String :=
  (b.relationships.filter (fun r => r.1 == ty)).flatMap (fun r => r.2)

/-- `textract_service._get_text_from_block`: the space-joined texts of the
block's WORD children. -/
def get_text_from_block (m : List Block) (b : Block) : String :=
  String.intercalate " "
    ((((relationIds b "CHILD").filterMap (blockLookup m)).filter
      (fun c => c.blockType == "WORD")).map (fun c => c.text))

/-- The `(RowIndex, ColumnIndex, text)` triples of the CELL children of a
TABLE block, in relationship order. -/
def tableCells (m : List Block) (tb : Block) : List (ℕ × ℕ × String) :=
  ((((relationIds tb "CHILD").filterMap (blockLookup m)).filter
    (fun c => c.blockType == "CELL")).map
    (fun c => (c.rowIndex, c.colIndex, get_text_from_block m c)))

/-- The distinct keys of `ks` in increasing order: `sorted(dict.keys())`. -/
def sortedKeys (ks : List ℕ) : List ℕ :=
  (List.range (ks.foldr max 0 + 1)).filter (fun k => k ∈ ks)

/-- `rows[r][c]` of the nested dict built by `_parse_table`; later writes to
the same `(RowIndex, ColumnIndex)` win, as in a Python dict. -/
def cellValue (cells : List (ℕ × ℕ × String)) (r c : ℕ) : String :=
  (((cells.filter (fun x => x.1 == r && x.2.1 == c)).getLast?).map
    (fun x => x.2.2)).getD ""

/-- The result record of `_parse_table`. -/
structure TableData where
  rows : List (List String)
  row_count : ℕ
  col_count : ℕ
deriving DecidableEq

/-- `textract_service._parse_table`: group the CELL children by `RowIndex`,
then emit, for each present row index in increasing order, the texts of that
row's present cells in increasing `ColumnIndex` order.  `row_count` is the
number of emitted rows and `col_count` the length of the longest one. -/
def parse_table (m : List Block) (tb : Block) : TableData :=
  let cells := tableCells m tb
  let rows := (sortedKeys (cells.map (fun x => x.1))).map (fun r =>
    (sortedKeys ((cells.filter (fun x => x.1 == r)).map (fun x => x.2.1))).map
      (fun c => cellValue cells r c))
  { rows := rows
    row_count := rows.length
    col_count := (rows.map List.length).foldr max 0 }

/-- The sparse two-cell table used to refute C5: one cell at (1,1) with text
"a", one at (2,3) with text "b". -/
def c5Table : Block :=
  { id := "t", blockType := "TABLE", relationships := [("CHILD", ["c1", "c2"])] }

def c5Blocks : List Block :=
  [c5Table,
   { id := "c1", blockType := "CELL", rowIndex := 1, colIndex := 1,
     relationships := [("CHILD", ["w1"])] },
   { id := "c2", blockType := "CELL", rowIndex := 2, colIndex := 3,
     relationships := [("CHILD", ["w2"])] },
   { id := "w1", blockType := "WORD", text := "a" },
   { id := "w2", blockType := "WORD", text := "b" }]

/-- C5 counterexample: for the sparse table with cells at (1,1)="a" and
(2,3)="b", the claim demands the dense 2×3 grid `[["a","",""],["","","b"]]`
with column count 3 (the maximum ColumnIndex); the code instead compacts the
present cells into `[["a"],["b"]]` with column count 1 and inserts no empty
strings. -/
theorem C5_sparse_table_counterexample :
    (parse_table c5Blocks c5Table).rows = [["a"], ["b"]] ∧
    (parse_table c5Blocks c5Table).col_count = 1 ∧ (1 : ℕ) ≠ 3 ∧
    (parse_table c5Blocks c5Table).rows ≠ [["a", "", ""], ["", "", "b"]] := by
  decide

lemma mem_sortedKeys {k : ℕ} {ks : List ℕ} (h : k ∈ sortedKeys ks) : k ∈ ks := by
  rw [sortedKeys, List.mem_filter] at h
  exact of_decide_eq_true h.2

/-- C5 (amended): `_parse_table` emits one row per distinct `RowIndex` among
the table's CELL children (`row_count` is the number of emitted rows), and
every string in the emitted grid is the text of a cell actually present in
the graph — absent positions are omitted rather than materialised as the
empty string, so the grid is not padded to the maximum indices. -/
theorem C5_rows_are_present_cells (m : List Block) (tb : Block) :
    (parse_table m tb).row_count = (parse_table m tb).rows.length ∧
    ∀ row ∈ (parse_table m tb).rows, ∀ s ∈ row,
      ∃ p ∈ tableCells m tb, p.2.2 = s := by
  refine ⟨rfl, ?_⟩
  intro row hrow s hs
  simp only [parse_table, List.mem_map] at hrow
  obtain ⟨r, _, hrowEq⟩ := hrow
  rw [← hrowEq] at hs
  simp only [List.mem_map] at hs
  obtain ⟨c, hc, hsEq⟩ := hs
  have hc' : c ∈ ((tableCells m tb).filter (fun x => x.1 == r)).map
      (fun x => x.2.1) := mem_sortedKeys hc
  simp only [List.mem_map, List.mem_filter] at hc'
  obtain ⟨x, ⟨hxMem, hxRow⟩, hxCol⟩ := hc'
  have hxIn : x ∈ (tableCells m tb).filter (fun y => y.1 == r && y.2.1 == c) := by
    rw [List.mem_filter]
    refine ⟨hxMem, ?_⟩
    rw [Bool.and_eq_true]
    exact ⟨hxRow, by rw [hxCol]; exact beq_self_eq_true c⟩
  have hne : (tableCells m tb).filter (fun y => y.1 == r && y.2.1 == c) ≠ [] :=
    List.ne_nil_of_mem hxIn
  have hlast := List.getLast?_eq_getLast_of_ne_nil hne
  have hyMem : ((tableCells m tb).filter
      (fun y => y.1 == r && y.2.1 == c)).getLast hne ∈
      (tableCells m tb).filter (fun y => y.1 == r && y.2.1 == c) :=
    List.getLast_mem hne
  refine ⟨_, (List.mem_filter.mp hyMem).1, ?_⟩
  rw [← hsEq, cellValue, hlast]
  rfl

/-- C5 witness: the amended theorem at the concrete sparse table; every
string of its first emitted row is the text of a present cell. -/
theorem C5_rows_are_present_cells_witness :
    (parse_table c5Blocks c5Table).row_count = (parse_table c5Blocks c5Table).rows.length ∧
    ∃ p ∈ tableCells c5Blocks c5Table, p.2.2 = "a" := by
  have h := C5_rows_are_present_cells c5Blocks c5Table
  refine ⟨h.1, ?_⟩
  have hrow : ["a"] ∈ (parse_table c5Blocks c5Table).rows := by decide
  have hs : "a" ∈ (["a"] : List String) := by decide
  exact h.2 ["a"] hrow "a" hs

/-! ## `textract_enhancer.TextractDataEnhancer`

A line item is a dict whose fields the enhancer reads and writes; absent keys
are `none`.  Python truthiness of a numeric field is `some q` with `q ≠ 0`,
of a string field `some s` with `s ≠ ""`. -/

def truthyQ : Option ℚ → Bool
  | none => false
  | some q => if q = 0 then false else true

def truthyStr : Option String → Bool
  | none => false
  | some s => !s.isEmpty

structure LineItem where
  item_number : Option ℕ := none
  product_code : Option String := none
  description : Option String := none
  reference : Option String := none
  quantity : Option ℚ := none
  unit_measure : Option String := none
  unit_price : Option ℚ := none
  subtotal : Option ℚ := none
  original_quantity : Option ℚ := none
  original_unit : Option String := none
  unit_multiplier : Option ℤ := none
  enhancement_applied : Option String := none
  subtotal_recalculated : Bool := false
  subtotal_calculated : Bool := false
deriving DecidableEq

/-- `self.unit_conversions` of `TextractDataEnhancer.__init__`. -/
def unit_conversions : List (String × ℤ) :=
  [("DOC", 12), ("DOCENA", 12), ("PAR", 2), ("PARES", 2), ("GRS", 144),
   ("GRUESA", 144), ("PCS", 1), ("UND", 1), ("UNIDAD", 1), ("PIEZA", 1),
   ("KG", 1), ("G", 1), ("L", 1), ("ML", 1)]

/-- `self.unit_conversions.get(unit, 1)`. -/
def unitMultiplier (u : String) : ℤ :=
  ((unit_conversions.find? (fun p => p.1 == u)).map (fun p => p.2)).getD 1

/-- `.strip().upper()` (ASCII upper-casing). -/
def stripUpper (s : String) : String :=
  String.mk ((pyStrip s.data).map Char.toUpper)

/-- Match `^(\d+)<sep>+(.+)$` where `<sep>` is the given class: leading
digits, at least one separator, then a nonempty remainder.  When the
remainder after the greedy separator run is empty, regex backtracking hands
the last separator character back to the `(.+)` group. -/
def matchDigitsThenSep (isSep : Char → Bool) (cs : List Char) :
    Option (List Char × List Char) :=
  let ds := cs.takeWhile Char.isDigit
  if ds = [] then none
  else
    let rest1 := cs.drop ds.length
    let seps := rest1.takeWhile isSep
    if seps = [] then none
    else
      let rest2 := rest1.drop seps.length
      if rest2 ≠ [] then some (ds, rest2)
      else if 2 ≤ seps.length then some (ds, [(seps.getLast?).getD ' '])
      else none

/-- Final fallback of `_separate_item_and_ref`: no pattern matched, so only
set the item number when it is absent. -/
def sepDefault (lineNumber : ℕ) (item : LineItem) : LineItem :=
  if item.item_number = none then { item with item_number := some lineNumber }
  else item

/-- Pattern 2 of `_separate_item_and_ref`: `^(\d+)[\.\)\s]+(.+)$`. -/
def sepFallback (lineNumber : ℕ) (item : LineItem) (pc : List Char) : LineItem :=
  match matchDigitsThenSep (fun c => c = '.' || c = ')' || isPySpace c) pc with
  | some (ds, rest) =>
    if digitsToNat ds = lineNumber then
      { item with
        item_number := some lineNumber
        product_code := some (String.mk rest)
        enhancement_applied := some "item_ref_separated_alt" }
    else sepDefault lineNumber item
  | none => sepDefault lineNumber item

/-- `textract_enhancer._separate_item_and_ref`: split a leading ordinal item
number off `product_code` when it equals the line position. -/
def separate_item_and_ref (lineNumber : ℕ) (item : LineItem) : LineItem :=
  let pc := pyStrip (item.product_code.getD "").data
  if pc = [] then item
  else
    match matchDigitsThenSep isPySpace pc with
    | some (ds, rest) =>
      if digitsToNat ds = lineNumber then
        { item with
          item_number := some lineNumber
          product_code := some (String.mk rest)
          enhancement_applied := some "item_ref_separated" }
      else sepFallback lineNumber item pc
    | none => sepFallback lineNumber item pc

/-- `textract_enhancer._convert_units_to_pieces`.  The inner `try` cannot
fail on fields that already hold `Decimal` values, so the `except` branch
(which would force the multiplier back to 1) is unreachable here. -/
def convert_units_to_pieces (item : LineItem) : LineItem :=
  let unit := stripUpper (item.unit_measure.getD "")
  if !truthyQ item.quantity || unit.isEmpty then item
  else
    let item1 := { item with
      original_quantity := item.quantity
      original_unit := some unit }
    let m := unitMultiplier unit
    if m ≠ 1 then
      { item1 with
        quantity := item.quantity.map (fun q => q * (m : ℚ))
        unit_measure := some "PCS"
        unit_multiplier := some m
        enhancement_applied := some ("unit_converted_" ++ unit ++ "_to_PCS")
        unit_price :=
          if truthyQ item.unit_price then item.unit_price.map (fun p => p / (m : ℚ))
          else item.unit_price }
    else { item1 with unit_multiplier := some 1 }

/-- `re.sub(r'\s+', ' ', s)`: collapse whitespace runs to single spaces.  The
flag records whether the previous character was part of a run. -/
def collapseWsAux : Bool → List Char → List Char
  | _, [] => []
  | prevSpace, c :: rest =>
    if isPySpace c then
      if prevSpace then collapseWsAux true rest
      else ' ' :: collapseWsAux true rest
    else c :: collapseWsAux false rest

def collapseWs (cs : List Char) : List Char :=
  collapseWsAux false cs

/-- Drop `kw` (given upper-case) case-insensitively from the front. -/
def dropKeywordCI (kw : String) (cs : List Char) : Option (List Char) :=
  let front := cs.take kw.length
  if front.length = kw.length ∧ front.map Char.toUpper = kw.data then
    some (cs.drop kw.length)
  else none

def dropOptColon : List Char → List Char
  | ':' :: rest => rest
  | cs => cs

/-- `re.sub(r'^(REF|CODIGO|COD|ITEM|#)\s*:?\s*', '', s, flags=IGNORECASE)`:
ordered alternation, then optional `:` between whitespace. -/
def stripCodeKeyword (cs : List Char) : List Char :=
  match ["REF", "CODIGO", "COD", "ITEM", "#"].findSome?
      (fun kw => dropKeywordCI kw cs) with
  | some rest => (dropOptColon (rest.dropWhile isPySpace)).dropWhile isPySpace
  | none => cs

/-- `re.sub(r'[^\w\s\(\)\-\.]', '', s)` (ASCII `\w`). -/
def cleanDescChars (cs : List Char) : List Char :=
  cs.filter (fun c => c.isAlphanum || c = '_' || isPySpace c || c = '(' ||
    c = ')' || c = '-' || c = '.')

/-- `_clean_decimal_field` applied to a field that already holds a `Decimal`
value (or `None`).  `str(Decimal)` prints a plain numeral (or an exponent
form containing no `$`, whitespace, comma or second point), so the
strip/disambiguation pipeline leaves it unchanged and `Decimal` re-reads the
same value: the identity on `Option ℚ`. -/
def cleanDecimalValue (v : Option ℚ) : Option ℚ := v

/-- `textract_enhancer._clean_line_item_fields`. -/
def clean_line_item_fields (item : LineItem) : LineItem :=
  let item1 :=
    if truthyStr item.product_code then
      { item with
        product_code := some (String.mk (stripCodeKeyword
          (collapseWs (pyStrip (item.product_code.getD "").data)))) }
    else item
  let item2 :=
    if truthyStr item1.description then
      { item1 with
        description := some (String.mk (cleanDescChars
          (collapseWs (pyStrip (item1.description.getD "").data)))) }
    else item1
  { item2 with
    quantity := cleanDecimalValue item2.quantity
    unit_price := cleanDecimalValue item2.unit_price
    subtotal := cleanDecimalValue item2.subtotal }

/-- `textract_enhancer._recalculate_subtotal`. -/
def recalculate_subtotal (item : LineItem) : LineItem :=
  if truthyQ item.quantity && truthyQ item.unit_price then
    let calcVal := item.quantity.getD 0 * item.unit_price.getD 0
    match item.subtotal with
    | some cur =>
      if cur ≠ 0 then
        if |(calcVal - cur) / cur| * 100 > 5 then
          { item with subtotal := some calcVal, subtotal_recalculated := true }
        else item
      else { item with subtotal := some calcVal, subtotal_calculated := true }
    | none => { item with subtotal := some calcVal, subtotal_calculated := true }
  else item

/-- Steps 1–4 of `_enhance_line_items` for one item at 1-based position
`lineNumber`. -/
def enhance_item (lineNumber : ℕ) (item : LineItem) : LineItem :=
  recalculate_subtotal (clean_line_item_fields
    (convert_units_to_pieces (separate_item_and_ref lineNumber item)))

/-- The `try`/`except` loop of `_enhance_line_items`, abstracted over the
per-item enhancement: a step that raises (`Except.error`, which in Python can
only come from a dynamically ill-typed field) leaves the original item in
place, and the loop itself never raises. -/
def enhance_line_items_with (step : ℕ → LineItem → Except String LineItem)
    (items : List LineItem) : List LineItem :=
  items.enum.map (fun p =>
    match step (p.1 + 1) p.2 with
    | .ok e => e
    | .error _ => p.2)

/-- `textract_enhancer._enhance_line_items` with the concrete (typed, hence
total) steps 1–4. -/
def enhance_line_items (items : List LineItem) : List LineItem :=
  enhance_line_items_with (fun i it => .ok (enhance_item i it)) items

/-- The warnings produced by `_validate_enhanced_data`, one constructor per
Spanish message template. -/
inductive Warning
  | missingDescription (line : ℕ)
  | invalidQuantity (line : ℕ)
  | invalidUnitPrice (line : ℕ)
  | highUnitConversion (line : ℕ)
  | subtotalRecalculated (line : ℕ)
  | invalidTotal
deriving DecidableEq

/-- The per-item checks of `_validate_enhanced_data` (`line` is 1-based). -/
def validateItem (line : ℕ) (item : LineItem) : List Warning :=
  (if truthyStr item.description then [] else [Warning.missingDescription line]) ++
  (if !truthyQ item.quantity || decide (item.quantity.getD 0 ≤ 0) then
    [Warning.invalidQuantity line] else []) ++
  (if !truthyQ item.unit_price || decide (item.unit_price.getD 0 ≤ 0) then
    [Warning.invalidUnitPrice line] else []) ++
  (if 100 < item.unit_multiplier.getD 1 then [Warning.highUnitConversion line]
    else []) ++
  (if item.subtotal_recalculated then [Warning.subtotalRecalculated line] else [])

/-- The invoice-level data the enhancer touches.  `totals_total` is
`data['totals']` restricted to its `total` entry: `none` when the `totals`
dict is absent or falsy, `some t` when present with `total = t`.  The
supplier/customer sub-dicts are cleaned field-by-field exactly like
`invoice_number` and are omitted. -/
structure ExtractedData where
  line_items : List LineItem := []
  invoice_number : Option String := none
  totals_total : Option (Option ℚ) := none
  enhancement_warnings : List Warning := []
deriving DecidableEq

/-- `textract_enhancer._validate_enhanced_data`. -/
def validate_enhanced_data (items : List LineItem)
    (totals : Option (Option ℚ)) : List Warning :=
  (items.enum.flatMap (fun p => validateItem (p.1 + 1) p.2)) ++
  (match totals with
   | some (some t) => if t ≠ 0 ∧ t ≤ 0 then [Warning.invalidTotal] else []
   | _ => [])

/-- `_clean_text_string`: collapse whitespace, keep `[\w\s\-\.\(\)\,\:]`. -/
def clean_text_string (s : String) : String :=
  String.mk ((collapseWs (pyStrip s.data)).filter
    (fun c => c.isAlphanum || c = '_' || isPySpace c || c = '-' || c = '.' ||
      c = '(' || c = ')' || c = ',' || c = ':'))

/-- `textract_enhancer._clean_text_fields` on the modelled fields. -/
def clean_text_fields (d : ExtractedData) : ExtractedData :=
  if truthyStr d.invoice_number then
    { d with invoice_number := some (clean_text_string (d.invoice_number.getD "")) }
  else d

/-- `enhance_extracted_data`, abstracted over the per-item step like
`enhance_line_items_with`. -/
def enhance_extracted_data_with (step : ℕ → LineItem → Except String LineItem)
    (d : ExtractedData) : ExtractedData :=
  let d1 := clean_text_fields
    { d with line_items := enhance_line_items_with step d.line_items }
  { d1 with enhancement_warnings :=
      validate_enhanced_data d1.line_items d1.totals_total }

/-- `textract_enhancer.enhance_extracted_data` with the concrete steps. -/
def enhance_extracted_data (d : ExtractedData) : ExtractedData :=
  enhance_extracted_data_with (fun i it => .ok (enhance_item i it)) d

/-- The default (all-fields-absent) line item. -/
def emptyItem : LineItem := {}

/-- Step 1 only writes `item_number`, `product_code` and the enhancement tag. -/
lemma separate_preserves (n : ℕ) (item : LineItem) :
    (separate_item_and_ref n item).quantity = item.quantity ∧
    (separate_item_and_ref n item).unit_measure = item.unit_measure ∧
    (separate_item_and_ref n item).unit_price = item.unit_price ∧
    (separate_item_and_ref n item).subtotal = item.subtotal ∧
    (separate_item_and_ref n item).unit_multiplier = item.unit_multiplier ∧
    (separate_item_and_ref n item).original_quantity = item.original_quantity ∧
    (separate_item_and_ref n item).original_unit = item.original_unit ∧
    (separate_item_and_ref n item).description = item.description ∧
    (separate_item_and_ref n item).subtotal_recalculated = item.subtotal_recalculated ∧
    (separate_item_and_ref n item).subtotal_calculated = item.subtotal_calculated := by
  unfold separate_item_and_ref sepFallback sepDefault
  dsimp only
  (repeat' split) <;>
    exact ⟨rfl, rfl, rfl, rfl, rfl, rfl, rfl, rfl, rfl, rfl⟩

/-- Step 3 only rewrites `product_code` and `description`; the numeric fields
pass through the value-level `_clean_decimal_field` unchanged. -/
lemma clean_preserves (item : LineItem) :
    (clean_line_item_fields item).quantity = item.quantity ∧
    (clean_line_item_fields item).unit_measure = item.unit_measure ∧
    (clean_line_item_fields item).unit_price = item.unit_price ∧
    (clean_line_item_fields item).subtotal = item.subtotal ∧
    (clean_line_item_fields item).unit_multiplier = item.unit_multiplier ∧
    (clean_line_item_fields item).original_quantity = item.original_quantity ∧
    (clean_line_item_fields item).original_unit = item.original_unit ∧
    (clean_line_item_fields item).subtotal_recalculated = item.subtotal_recalculated ∧
    (clean_line_item_fields item).subtotal_calculated = item.subtotal_calculated := by
  unfold clean_line_item_fields cleanDecimalValue
  dsimp only
  (repeat' split) <;>
    exact ⟨rfl, rfl, rfl, rfl, rfl, rfl, rfl, rfl, rfl⟩

/-- Step 4 only writes `subtotal` and its two flags. -/
lemma recalc_preserves (item : LineItem) :
    (recalculate_subtotal item).quantity = item.quantity ∧
    (recalculate_subtotal item).unit_measure = item.unit_measure ∧
    (recalculate_subtotal item).unit_price = item.unit_price ∧
    (recalculate_subtotal item).unit_multiplier = item.unit_multiplier ∧
    (recalculate_subtotal item).original_quantity = item.original_quantity ∧
    (recalculate_subtotal item).original_unit = item.original_unit ∧
    (recalculate_subtotal item).description = item.description := by
  unfold recalculate_subtotal
  dsimp only
  (repeat' split) <;> exact ⟨rfl, rfl, rfl, rfl, rfl, rfl, rfl⟩

/-- Step 2 only writes unit-conversion fields, never `subtotal` or the
description. -/
lemma convert_preserves (item : LineItem) :
    (convert_units_to_pieces item).subtotal = item.subtotal ∧
    (convert_units_to_pieces item).description = item.description ∧
    (convert_units_to_pieces item).subtotal_recalculated = item.subtotal_recalculated ∧
    (convert_units_to_pieces item).subtotal_calculated = item.subtotal_calculated := by
  unfold convert_units_to_pieces
  dsimp only
  (repeat' split) <;> exact ⟨rfl, rfl, rfl, rfl⟩

/-- Every multiplier in the conversion table is positive. -/
lemma unitMultiplier_pos (u : String) : 0 < unitMultiplier u := by
  unfold unitMultiplier
  rcases hfind : unit_conversions.find? (fun p => p.1 == u) with _ | p
  · simp [hfind]
  · rw [hfind]
    show 0 < p.2
    have hmem := List.mem_of_find?_eq_some hfind
    fin_cases hmem <;> norm_num

/-- `_convert_units_to_pieces` does nothing when quantity or unit is falsy. -/
lemma convert_skip (item : LineItem)
    (h : truthyQ item.quantity = false ∨ stripUpper (item.unit_measure.getD "") = "") :
    convert_units_to_pieces item = item := by
  unfold convert_units_to_pieces
  have hc : (!truthyQ item.quantity ||
      (stripUpper (item.unit_measure.getD "")).isEmpty) = true := by
    rcases h with h | h
    · rw [h]
      rfl
    · rw [h]
      rw [show String.isEmpty "" = true from rfl, Bool.or_true]
  simp [hc]

/-- `_convert_units_to_pieces` with a truthy quantity and a unit whose
multiplier is 1: the original values are stored anyway and only
`unit_multiplier` is written. -/
lemma convert_mult_one (item : LineItem) (u : String)
    (ht : truthyQ item.quantity = true)
    (hu : stripUpper (item.unit_measure.getD "") = u) (hne : u ≠ "")
    (hm1 : unitMultiplier u = 1) :
    convert_units_to_pieces item = { item with
      original_quantity := item.quantity
      original_unit := some u
      unit_multiplier := some 1 } := by
  have hie : u.isEmpty = false := by
    rw [Bool.eq_false_iff]
    intro hh
    exact hne ((String.isEmpty_iff u).mp hh)
  unfold convert_units_to_pieces
  rw [hu, ht]
  simp [hie, hm1]

/-- `_convert_units_to_pieces` with a truthy quantity and a converting unit. -/
lemma convert_fires (item : LineItem) (u : String)
    (ht : truthyQ item.quantity = true)
    (hu : stripUpper (item.unit_measure.getD "") = u) (hne : u ≠ "")
    (hm1 : unitMultiplier u ≠ 1) :
    convert_units_to_pieces item = { item with
      original_quantity := item.quantity
      original_unit := some u
      quantity := item.quantity.map (fun q => q * (unitMultiplier u : ℚ))
      unit_measure := some "PCS"
      unit_multiplier := some (unitMultiplier u)
      enhancement_applied := some ("unit_converted_" ++ u ++ "_to_PCS")
      unit_price :=
        if truthyQ item.unit_price then
          item.unit_price.map (fun p => p / (unitMultiplier u : ℚ))
        else item.unit_price } := by
  have hie : u.isEmpty = false := by
    rw [Bool.eq_false_iff]
    intro hh
    exact hne ((String.isEmpty_iff u).mp hh)
  unfold convert_units_to_pieces
  rw [hu, ht]
  simp [hie, hm1]

lemma truthyQ_some {q : ℚ} (h : q ≠ 0) : truthyQ (some q) = true := by
  simp [truthyQ, h]

/-- Full effect of steps 1–4 on an item whose unit converts (`multiplier ≠ 1`)
and whose quantity is truthy. -/
lemma enhance_converted_fields (n : ℕ) (item : LineItem) (q p : ℚ) (u : String)
    (hu : item.unit_measure = some u) (hU : stripUpper u = u)
    (hq : item.quantity = some q) (hq0 : q ≠ 0)
    (hp : item.unit_price = some p)
    (hne : u ≠ "") (hm1 : unitMultiplier u ≠ 1) :
    (enhance_item n item).unit_measure = some "PCS" ∧
    (enhance_item n item).quantity = some (q * (unitMultiplier u : ℚ)) ∧
    (enhance_item n item).unit_price = some (p / (unitMultiplier u : ℚ)) ∧
    (enhance_item n item).unit_multiplier = some (unitMultiplier u) ∧
    (enhance_item n item).original_quantity = some q ∧
    (enhance_item n item).original_unit = some u := by
  obtain ⟨sq, su, sp, _, _, _, _, _, _, _⟩ := separate_preserves n item
  set s := separate_item_and_ref n item with hsdef
  have hsu : stripUpper (s.unit_measure.getD "") = u := by
    rw [su, hu]
    exact hU
  have ht : truthyQ s.quantity = true := by
    rw [sq, hq]
    exact truthyQ_some hq0
  have hc := convert_fires s u ht hsu hne hm1
  obtain ⟨cq, cu, cp, _, cm, coq, cou, _, _⟩ :=
    clean_preserves (convert_units_to_pieces s)
  obtain ⟨rq, ru, rp, rm, roq, rou, _⟩ :=
    recalc_preserves (clean_line_item_fields (convert_units_to_pieces s))
  have hE : enhance_item n item =
      recalculate_subtotal (clean_line_item_fields (convert_units_to_pieces s)) := rfl
  rw [hE]
  refine ⟨?_, ?_, ?_, ?_, ?_, ?_⟩
  · rw [ru, cu, hc]
  · rw [rq, cq, hc]
    show s.quantity.map _ = _
    rw [sq, hq]
    rfl
  · rw [rp, cp, hc]
    show (if truthyQ s.unit_price then
        s.unit_price.map (fun x => x / (unitMultiplier u : ℚ))
      else s.unit_price) = _
    rw [sp, hp]
    rcases eq_or_ne p 0 with rfl | hp0
    · simp [truthyQ, zero_div]
    · rw [if_pos (truthyQ_some hp0)]
      rfl
  · rw [rm, cm, hc]
  · rw [roq, coq, hc]
    show s.quantity = _
    rw [sq, hq]
  · rw [rou, cou, hc]

def c3Item : LineItem :=
  { unit_measure := some "DOC", quantity := some 1, unit_price := some 105000 }

/-- C3 counterexample: a line item with `unit_measure = "DOC"`, the non-null
quantity `Decimal('0')` and unit price 5000 is left untouched (Python
truthiness treats the zero quantity as absent), so its unit stays `"DOC"`
instead of the claimed `"PCS"`. -/
theorem C3_zero_quantity_counterexample :
    (enhance_item 1
      { unit_measure := some "DOC", quantity := some 0, unit_price := some 5000 }).unit_measure
        = some "DOC" ∧
    (some "DOC" : Option String) ≠ some "PCS" := by decide

/-- C3 (amended): for a line item with `unit_measure = "DOC"`, non-null
**nonzero** quantity `q` and non-null unit price `p`, enhancement yields
`unit_measure = "PCS"`, `quantity = 12·q`, `unit_price = p/12` and
`unit_multiplier = 12`, exactly. -/
theorem C3_doc_conversion (n : ℕ) (item : LineItem) (q p : ℚ)
    (hu : item.unit_measure = some "DOC")
    (hq : item.quantity = some q) (hq0 : q ≠ 0)
    (hp : item.unit_price = some p) :
    (enhance_item n item).unit_measure = some "PCS" ∧
    (enhance_item n item).quantity = some (12 * q) ∧
    (enhance_item n item).unit_price = some (p / 12) ∧
    (enhance_item n item).unit_multiplier = some 12 := by
  have h := enhance_converted_fields n item q p "DOC" hu (by decide) hq hq0 hp
    (by decide) (by decide)
  have hM : unitMultiplier "DOC" = 12 := by decide
  rw [hM] at h
  refine ⟨h.1, ?_, ?_, ?_⟩
  · rw [h.2.1]
    norm_num [mul_comm]
  · rw [h.2.2.1]
    norm_num
  · exact h.2.2.2.1

/-- C3 witness: the amended theorem at 1 DOC of unit price 105000, which
becomes 12 PCS at 8750 each. -/
theorem C3_doc_conversion_witness :
    (enhance_item 1 c3Item).unit_measure = some "PCS" ∧
    (enhance_item 1 c3Item).quantity = some 12 ∧
    (enhance_item 1 c3Item).unit_price = some 8750 ∧
    (enhance_item 1 c3Item).unit_multiplier = some 12 := by
  have h := C3_doc_conversion 1 c3Item 1 105000 rfl rfl (by norm_num) rfl
  refine ⟨h.1, ?_, ?_, h.2.2.2⟩
  · rw [h.2.1]
    norm_num
  · rw [h.2.2.1]
    norm_num

/-- The canonical unit codes: the keys of the conversion table (which include
`"PCS"`). -/
def canonicalUnits : List String := unit_conversions.map (fun p => p.1)

/-- C6 counterexample: enhancement leaves an unrecognized unit string in
place, so after enhancement `unit_measure` need not belong to the canonical
set: a `"XYZ"` item keeps `unit_measure = "XYZ"`. -/
theorem C6_noncanonical_unit_counterexample :
    (enhance_item 1
      { unit_measure := some "XYZ", quantity := some 1 }).unit_measure = some "XYZ" ∧
    "XYZ" ∉ canonicalUnits := by decide

/-- C6 (amended): for any item entering enhancement without a multiplier,
whenever the enhanced item carries `unit_multiplier = m > 1`, the conversion
fired: `unit_measure = "PCS"`, `quantity = original_quantity × m` and
`unit_price = (pre-enhancement unit_price) / m`, exactly.  When no conversion
fired, `unit_measure` keeps its incoming value, which need not be canonical
(see the counterexample). -/
theorem C6_multiplier_invariant (n : ℕ) (item : LineItem) (m : ℤ)
    (h0 : item.unit_multiplier = none)
    (hm : (enhance_item n item).unit_multiplier = some m) (h1 : 1 < m) :
    (enhance_item n item).unit_measure = some "PCS" ∧
    (enhance_item n item).quantity =
      (enhance_item n item).original_quantity.map (fun q => q * (m : ℚ)) ∧
    (enhance_item n item).unit_price = item.unit_price.map (fun p => p / (m : ℚ)) := by
  obtain ⟨sq, su, sp, _, smul, _, _, _, _, _⟩ := separate_preserves n item
  set s := separate_item_and_ref n item with hsdef
  obtain ⟨cq, cu, cp, _, cm, coq, cou, _, _⟩ :=
    clean_preserves (convert_units_to_pieces s)
  obtain ⟨rq, ru, rp, rm, roq, rou, _⟩ :=
    recalc_preserves (clean_line_item_fields (convert_units_to_pieces s))
  have hE : enhance_item n item =
      recalculate_subtotal (clean_line_item_fields (convert_units_to_pieces s)) := rfl
  rw [hE] at hm ⊢
  have hmm : (convert_units_to_pieces s).unit_multiplier = some m := by
    rw [← cm, ← rm]
    exact hm
  by_cases hg : truthyQ s.quantity = true ∧ stripUpper (s.unit_measure.getD "") ≠ ""
  case neg =>
    exfalso
    have hskip : convert_units_to_pieces s = s := by
      apply convert_skip
      by_cases ht : truthyQ s.quantity = true
      · right
        by_contra hne
        exact hg ⟨ht, hne⟩
      · left
        exact Bool.eq_false_iff.mpr ht
    rw [hskip, smul, h0] at hmm
    exact Option.noConfusion hmm
  case pos =>
    obtain ⟨ht, hne⟩ := hg
    by_cases hm1 : unitMultiplier (stripUpper (s.unit_measure.getD "")) = 1
    · exfalso
      rw [convert_mult_one s _ ht rfl hne hm1] at hmm
      have : (1 : ℤ) = m := by simpa using hmm
      omega
    · have hc := convert_fires s _ ht rfl hne hm1
      have hmu : unitMultiplier (stripUpper (s.unit_measure.getD "")) = m := by
        rw [hc] at hmm
        simpa using hmm
      refine ⟨?_, ?_, ?_⟩
      · rw [ru, cu, hc]
      · rw [rq, cq, roq, coq, hc]
        show s.quantity.map _ = s.quantity.map _
        rw [hmu]
      · rw [rp, cp, hc]
        show (if truthyQ s.unit_price then
            s.unit_price.map (fun x => x / (unitMultiplier
              (stripUpper (s.unit_measure.getD "")) : ℚ))
          else s.unit_price) = _
        rw [hmu, sp]
        rcases hup : item.unit_price with _ | p
        · simp [truthyQ]
        · rcases eq_or_ne p 0 with rfl | hp0
          · simp [truthyQ, zero_div]
          · rw [if_pos (truthyQ_some hp0)]

def c6Item : LineItem :=
  { unit_measure := some "DOC", quantity := some 2, unit_price := some 24 }

/-- C6 witness: the amended theorem at a 2 DOC item with unit price 24. -/
theorem C6_multiplier_invariant_witness :
    (enhance_item 1 c6Item).unit_measure = some "PCS" ∧
    (enhance_item 1 c6Item).quantity =
      (enhance_item 1 c6Item).original_quantity.map (fun q => q * ((12 : ℤ) : ℚ)) ∧
    (enhance_item 1 c6Item).unit_price = c6Item.unit_price.map (fun p => p / ((12 : ℤ) : ℚ)) := by
  have h := enhance_converted_fields 1 c6Item 2 24 "DOC" rfl (by decide) rfl
    (by norm_num) rfl (by decide) (by decide)
  have hM : unitMultiplier "DOC" = 12 := by decide
  rw [hM] at h
  exact C6_multiplier_invariant 1 c6Item 12 rfl h.2.2.2.1 (by norm_num)

/-- Whenever the guard of `_convert_units_to_pieces` passes (truthy quantity,
nonempty unit), the original values are stored unconditionally — also when
the multiplier is 1 — and the result still has a truthy quantity and a
nonempty unit. -/
lemma convert_stores (item : LineItem) (q : ℚ) (u : String)
    (hq : item.quantity = some q) (hq0 : q ≠ 0)
    (hu : stripUpper (item.unit_measure.getD "") = u) (hne : u ≠ "") :
    (convert_units_to_pieces item).original_quantity = item.quantity ∧
    (convert_units_to_pieces item).original_unit = some u ∧
    (∃ q' : ℚ, (convert_units_to_pieces item).quantity = some q' ∧ q' ≠ 0) ∧
    stripUpper ((convert_units_to_pieces item).unit_measure.getD "") ≠ "" := by
  have ht : truthyQ item.quantity = true := by
    rw [hq]
    exact truthyQ_some hq0
  by_cases hm1 : unitMultiplier u = 1
  · rw [convert_mult_one item u ht hu hne hm1]
    refine ⟨rfl, rfl, ⟨q, ?_, hq0⟩, ?_⟩
    · show item.quantity = some q
      exact hq
    · show stripUpper (item.unit_measure.getD "") ≠ ""
      rw [hu]
      exact hne
  · rw [convert_fires item u ht hu hne hm1]
    have hmne : ((unitMultiplier u : ℤ) : ℚ) ≠ 0 := by
      have := unitMultiplier_pos u
      exact_mod_cast this.ne'
    refine ⟨rfl, rfl, ⟨q * (unitMultiplier u : ℚ), ?_, mul_ne_zero hq0 hmne⟩, ?_⟩
    · show item.quantity.map _ = _
      rw [hq]
      rfl
    · show stripUpper ((some "PCS" : Option String).getD "") ≠ ""
      decide

/-- C10 (confirmed): with a truthy quantity and a nonempty unit, the
unit-conversion step stores `original_quantity`/`original_unit`
unconditionally (also at multiplier 1), so a second enhancement run
overwrites them with the already-converted quantity and canonical unit. -/
theorem C10_originals_overwritten (n : ℕ) (item : LineItem) (q : ℚ) (u : String)
    (hq : item.quantity = some q) (hq0 : q ≠ 0)
    (hu : stripUpper (item.unit_measure.getD "") = u) (hne : u ≠ "") :
    (convert_units_to_pieces item).original_quantity = item.quantity ∧
    (convert_units_to_pieces item).original_unit = some u ∧
    (enhance_item n (enhance_item n item)).original_quantity =
      (enhance_item n item).quantity ∧
    (enhance_item n (enhance_item n item)).original_unit =
      some (stripUpper ((enhance_item n item).unit_measure.getD "")) := by
  have h1 := convert_stores item q u hq hq0 hu hne
  refine ⟨h1.1, h1.2.1, ?_, ?_⟩ <;>
  · obtain ⟨sq, su, _, _, _, _, _, _, _, _⟩ := separate_preserves n item
    set s := separate_item_and_ref n item with hsdef
    have hq_s : s.quantity = some q := by rw [sq, hq]
    have hu_s : stripUpper (s.unit_measure.getD "") = u := by rw [su, hu]
    have h2 := convert_stores s q u hq_s hq0 hu_s hne
    obtain ⟨q', hq', hq'0⟩ := h2.2.2.1
    set E := enhance_item n item with hEdef
    have hEexp : E = recalculate_subtotal (clean_line_item_fields
        (convert_units_to_pieces s)) := rfl
    have hEq : E.quantity = some q' := by
      rw [hEexp, (recalc_preserves _).1, (clean_preserves _).1]
      exact hq'
    have hEu : stripUpper (E.unit_measure.getD "") ≠ "" := by
      rw [hEexp, (recalc_preserves _).2.1, (clean_preserves _).2.1]
      exact h2.2.2.2
    obtain ⟨sq2, su2, _, _, _, _, _, _, _, _⟩ := separate_preserves n E
    set s2 := separate_item_and_ref n E with hs2def
    have hq_s2 : s2.quantity = some q' := by rw [sq2, hEq]
    have hu_s2 : stripUpper (s2.unit_measure.getD "") =
        stripUpper (E.unit_measure.getD "") := by rw [su2]
    have h3 := convert_stores s2 q' (stripUpper (E.unit_measure.getD ""))
      hq_s2 hq'0 hu_s2 hEu
    have hE2 : enhance_item n E = recalculate_subtotal (clean_line_item_fields
        (convert_units_to_pieces s2)) := rfl
    first
    | (show (enhance_item n E).original_quantity = E.quantity
       rw [hE2, (recalc_preserves _).2.2.2.2.1, (clean_preserves _).2.2.2.2.2.1,
         h3.1, sq2])
    | (show (enhance_item n E).original_unit =
          some (stripUpper (E.unit_measure.getD ""))
       rw [hE2, (recalc_preserves _).2.2.2.2.2.1, (clean_preserves _).2.2.2.2.2.2.1,
         h3.2.1])

def c10Item : LineItem := { quantity := some 1, unit_measure := some "UND" }

/-- C10 witness: the theorem at a 1 UND item (multiplier 1: the originals are
stored even though nothing converts, and a second run overwrites them). -/
theorem C10_originals_overwritten_witness :
    (convert_units_to_pieces c10Item).original_quantity = c10Item.quantity ∧
    (convert_units_to_pieces c10Item).original_unit = some "UND" ∧
    (enhance_item 1 (enhance_item 1 c10Item)).original_quantity =
      (enhance_item 1 c10Item).quantity ∧
    (enhance_item 1 (enhance_item 1 c10Item)).original_unit =
      some (stripUpper ((enhance_item 1 c10Item).unit_measure.getD "")) :=
  C10_originals_overwritten 1 c10Item 1 "UND" rfl (by norm_num) (by decide) (by decide)

/-- Unit conversion preserves the product quantity × unit price (and their
truthiness) for items with nonzero quantity and price. -/
lemma convert_qty_price (item : LineItem) (q p : ℚ)
    (hq : item.quantity = some q) (hq0 : q ≠ 0)
    (hp : item.unit_price = some p) (hp0 : p ≠ 0) :
    ∃ q' p' : ℚ, (convert_units_to_pieces item).quantity = some q' ∧
      (convert_units_to_pieces item).unit_price = some p' ∧
      q' ≠ 0 ∧ p' ≠ 0 ∧ q' * p' = q * p := by
  have ht : truthyQ item.quantity = true := by
    rw [hq]
    exact truthyQ_some hq0
  by_cases hne : stripUpper (item.unit_measure.getD "") = ""
  · rw [convert_skip item (Or.inr hne)]
    exact ⟨q, p, hq, hp, hq0, hp0, rfl⟩
  · by_cases hm1 : unitMultiplier (stripUpper (item.unit_measure.getD "")) = 1
    · rw [convert_mult_one item _ ht rfl hne hm1]
      exact ⟨q, p, hq, hp, hq0, hp0, rfl⟩
    · rw [convert_fires item _ ht rfl hne hm1]
      have hm0 : ((unitMultiplier (stripUpper (item.unit_measure.getD "")) : ℤ) : ℚ) ≠ 0 := by
        have := unitMultiplier_pos (stripUpper (item.unit_measure.getD ""))
        exact_mod_cast this.ne'
      refine ⟨q * (unitMultiplier (stripUpper (item.unit_measure.getD "")) : ℚ),
        p / (unitMultiplier (stripUpper (item.unit_measure.getD "")) : ℚ),
        ?_, ?_, mul_ne_zero hq0 hm0, div_ne_zero hp0 hm0, ?_⟩
      · show item.quantity.map _ = _
        rw [hq]
        rfl
      · show (if truthyQ item.unit_price then item.unit_price.map _
            else item.unit_price) = _
        rw [hp, if_pos (truthyQ_some hp0)]
        rfl
      · field_simp
        ring

/-- `enhance_extracted_data` enhances the items and validates the result;
text-field cleaning touches neither. -/
lemma enhance_data_fields (d : ExtractedData) :
    (enhance_extracted_data d).line_items = enhance_line_items d.line_items ∧
    (enhance_extracted_data d).enhancement_warnings =
      validate_enhanced_data (enhance_line_items d.line_items) d.totals_total := by
  unfold enhance_extracted_data enhance_extracted_data_with clean_text_fields
  dsimp only
  split <;> exact ⟨rfl, rfl⟩

lemma enhance_single (x : LineItem) :
    enhance_line_items [x] = [enhance_item 1 x] := rfl

/-- C7 (amended): for a line item with nonzero quantity and nonzero unit
price, enhancement computes quantity × unit price (the product is unchanged
by unit conversion); a missing subtotal is adopted, and a stated nonzero
subtotal more than 5% off is overwritten with the computed value, the
recalculated flag set and a warning emitted. -/
theorem C7_subtotal_reconciliation (n : ℕ) (item : LineItem) (q p : ℚ)
    (hq : item.quantity = some q) (hq0 : q ≠ 0)
    (hp : item.unit_price = some p) (hp0 : p ≠ 0) :
    (item.subtotal = none →
      (enhance_item n item).subtotal = some (q * p) ∧
      (enhance_item n item).subtotal_calculated = true) ∧
    (∀ s : ℚ, item.subtotal = some s → s ≠ 0 → |(q * p - s) / s| * 100 > 5 →
      (enhance_item n item).subtotal = some (q * p) ∧
      (enhance_item n item).subtotal_recalculated = true) ∧
    (∀ d : ExtractedData, d.line_items = [item] →
      (enhance_item 1 item).subtotal_recalculated = true →
      Warning.subtotalRecalculated 1 ∈
        (enhance_extracted_data d).enhancement_warnings) := by
  obtain ⟨sq, _, sp', ssub, _, _, _, _, _, _⟩ := separate_preserves n item
  set s := separate_item_and_ref n item with hsdef
  obtain ⟨q', p', hcq, hcp, hq'0, hp'0, hprod⟩ :=
    convert_qty_price s q p (by rw [sq, hq]) hq0 (by rw [sp', hp]) hp0
  set c := convert_units_to_pieces s with hcdef
  obtain ⟨cq, _, cp, csub, _, _, _, _, _⟩ := clean_preserves c
  set e2 := clean_line_item_fields c with he2def
  have he2q : e2.quantity = some q' := by rw [cq]; exact hcq
  have he2p : e2.unit_price = some p' := by rw [cp]; exact hcp
  have he2sub : e2.subtotal = item.subtotal := by
    rw [csub, (convert_preserves s).1, ssub]
  have hE : enhance_item n item = recalculate_subtotal e2 := rfl
  have hguard : (truthyQ e2.quantity && truthyQ e2.unit_price) = true := by
    rw [he2q, he2p, truthyQ_some hq'0, truthyQ_some hp'0]
    rfl
  have hcalc : e2.quantity.getD 0 * e2.unit_price.getD 0 = q * p := by
    rw [he2q, he2p]
    exact hprod
  refine ⟨?_, ?_, ?_⟩
  · intro hnone
    rw [hE]
    unfold recalculate_subtotal
    rw [hguard, he2sub, hnone]
    simp only [if_true]
    constructor
    · show some (e2.quantity.getD 0 * e2.unit_price.getD 0) = some (q * p)
      rw [hcalc]
    · trivial
  · intro sVal hsome hs0 hdiff
    rw [hE]
    unfold recalculate_subtotal
    rw [hguard, he2sub, hsome]
    simp only [if_true]
    rw [if_pos hs0, if_pos (by rw [hcalc]; exact hdiff)]
    constructor
    · show some (e2.quantity.getD 0 * e2.unit_price.getD 0) = some (q * p)
      rw [hcalc]
    · trivial
  · intro d hd hflag
    rw [(enhance_data_fields d).2, hd, enhance_single]
    unfold validate_enhanced_data
    apply List.mem_append_left
    have henum : ([enhance_item 1 item].enum) = [(0, enhance_item 1 item)] := rfl
    rw [henum]
    simp only [List.flatMap_cons, List.flatMap_nil, List.append_nil]
    simp [validateItem, hflag]

def c7Item : LineItem :=
  { description := some "D", quantity := some 12, unit_measure := some "UND",
    unit_price := some 5000, subtotal := some 50000 }

/-- C7 witness: quantity 12 at unit price 5000 with stated subtotal 50000 is
corrected to 60000, flagged, and warned about. -/
theorem C7_subtotal_reconciliation_witness :
    (enhance_item 1 c7Item).subtotal = some 60000 ∧
    (enhance_item 1 c7Item).subtotal_recalculated = true ∧
    Warning.subtotalRecalculated 1 ∈
      (enhance_extracted_data { line_items := [c7Item] }).enhancement_warnings := by
  have h := C7_subtotal_reconciliation 1 c7Item 12 5000 rfl (by norm_num) rfl
    (by norm_num)
  have habs : |((12 : ℚ) * 5000 - 50000) / 50000| * 100 > 5 := by
    rw [show ((12 : ℚ) * 5000 - 50000) / 50000 = 1 / 5 by norm_num,
      abs_of_nonneg (by norm_num : (0 : ℚ) ≤ 1 / 5)]
    norm_num
  have h2 := h.2.1 50000 rfl (by norm_num) habs
  refine ⟨?_, h2.2, h.2.2 _ rfl h2.2⟩
  rw [h2.1]
  norm_num

/-- C7 counterexample: quantity `Decimal('0')` and unit price 5000 are both
present, and the stated subtotal 50000 differs from the computed 0 by far
more than 5%, yet the code's truthiness guard skips reconciliation: the
subtotal is kept and no flag is set. -/
theorem C7_zero_quantity_counterexample :
    (enhance_item 1
      { description := some "D", quantity := some 0, unit_price := some 5000,
        subtotal := some 50000 }).subtotal = some 50000 ∧
    (enhance_item 1
      { description := some "D", quantity := some 0, unit_price := some 5000,
        subtotal := some 50000 }).subtotal_recalculated = false := by decide

def c4Item : LineItem :=
  { description := some "CHANCLA", quantity := some 1, unit_measure := some "DOC",
    unit_price := some 105000, subtotal := some 105000 }

/-- C4 counterexample: when the per-item enhancement raises (modelled by a
step returning `Except.error`, which in Python arises from a dynamically
ill-typed field), the item is kept in its pre-enhancement form — but the
failure is only logged; the returned `enhancement_warnings` list of a
one-item invoice whose kept item passes validation is empty, so the failure
is **not** recorded in the output warnings list, contrary to the claim. -/
theorem C4_failure_not_in_warnings_counterexample :
    enhance_line_items_with (fun _ _ => Except.error "AttributeError") [c4Item]
      = [c4Item] ∧
    (enhance_extracted_data_with (fun _ _ => Except.error "AttributeError")
      { line_items := [c4Item] }).enhancement_warnings = [] := by decide

/-- C4 (amended): the `try`/`except` of `_enhance_line_items` isolates a
failing item: for every per-item step and every list, the output has the same
length, and the `i`-th output is the enhanced item when the step succeeds and
the untouched original when it raises; the loop itself is total, so no
exception propagates to the caller.  The failure is only logged, not added to
the returned warnings list (see the counterexample). -/
theorem C4_per_item_isolation (step : ℕ → LineItem → Except String LineItem)
    (items : List LineItem) (i : ℕ) :
    (enhance_line_items_with step items).length = items.length ∧
    (enhance_line_items_with step items)[i]? =
      (items[i]?).map (fun it =>
        match step (i + 1) it with
        | .ok e => e
        | .error _ => it) := by
  constructor
  · simp [enhance_line_items_with]
  · simp only [enhance_line_items_with, List.getElem?_map, List.getElem?_enum]
    cases items[i]? <;> rfl

/-! ## `textract_service._extract_line_items` and the Colombian line parser -/

/-- Code-character class `[A-Z0-9-]` under `re.IGNORECASE`. -/
def isCodeChar (c : Char) : Bool :=
  c.isAlphanum || c = '-'

/-- `pat in hay` substring containment. -/
def listContains (pat : List Char) : List Char → Bool
  | [] => pat.isEmpty
  | c :: rest => pat.isPrefixOf (c :: rest) || listContains pat rest

/-- `textract_service._is_numeric`: falsy values are not numeric; otherwise
strip `$`, whitespace, commas and points and try `float()` (modelled for
plain sign-digits numerals, the only shape possible after the strip). -/
def is_numeric (s : String) : Bool :=
  if s = "" then false
  else (parseDecParts (s.data.filter
    (fun c => !(c = '$' || c = ',' || c = '.' || isPySpace c)))).isSome

/-- `unit_patterns` of `_detect_unit_from_text`, in insertion order. -/
def unit_patterns : List (String × List String) :=
  [("DOC", ["DOCENA", "DOC", "DOZEN", "(X12)", "X12"]),
   ("PAR", ["PAR", "PARES", "PAIR", "(X2)", "X2"]),
   ("GRS", ["GRUESA", "GRS", "GROSS", "(X144)", "X144"]),
   ("KG", ["KILOGRAMO", "KG", "KILO"]),
   ("G", ["GRAMO", "GR", "G"]),
   ("L", ["LITRO", "LT", "L"]),
   ("ML", ["MILILITRO", "ML"])]

/-- `textract_service._detect_unit_from_text`: parenthetical multipliers
`(X4)`–`(X12)` mean dozens; otherwise the first pattern of the table that is
a substring of the upper-cased text wins; default `"UND"`. -/
def detect_unit_from_text (text : String) : String :=
  if text.isEmpty then "UND"
  else
    let tu := text.data.map Char.toUpper
    if ["(X4)", "(X5)", "(X6)", "(X7)", "(X8)", "(X9)", "(X10)", "(X11)",
        "(X12)"].any (fun p => listContains p.data tu) then "DOC"
    else
      match unit_patterns.findSome? (fun up =>
          if up.2.any (fun p => listContains p.data tu) then some up.1 else none) with
      | some code => code
      | none => "UND"

/-- Leftmost match of `\(([A-Z0-9-]+)\)`. -/
def findParenCode : List Char → Option (List Char)
  | [] => none
  | c :: rest =>
    if c = '(' then
      let run := rest.takeWhile isCodeChar
      if run ≠ [] ∧ (rest.drop run.length).head? = some ')' then some run
      else findParenCode rest
    else findParenCode rest

/-- Leftmost match of `REF[:\s]*([A-Z0-9-]+)` under `re.IGNORECASE`. -/
def findRefCode : List Char → Option (List Char)
  | [] => none
  | c :: rest =>
    if (List.map Char.toUpper ((c :: rest).take 3)) = ['R', 'E', 'F'] then
      let after := (c :: rest).drop 3
      let run := (after.dropWhile (fun d => d = ':' || isPySpace d)).takeWhile isCodeChar
      if run ≠ [] then some run else findRefCode rest
    else findRefCode rest

/-- Leftmost match of `([A-Z0-9]{3,}-[A-Z0-9]+)` under `re.IGNORECASE`. -/
def findHyphenCode : List Char → Option (List Char)
  | [] => none
  | c :: rest =>
    let run1 := (c :: rest).takeWhile Char.isAlphanum
    let after := (c :: rest).drop run1.length
    if 3 ≤ run1.length ∧ after.head? = some '-' then
      let run2 := (after.drop 1).takeWhile Char.isAlphanum
      if run2 ≠ [] then some (run1 ++ '-' :: run2) else findHyphenCode rest
    else findHyphenCode rest

/-- Match of the anchored `^([A-Z0-9]{3,})\s` under `re.IGNORECASE`. -/
def findLeadCode (cs : List Char) : Option (List Char) :=
  let run := cs.takeWhile Char.isAlphanum
  let nextIsWs : Bool :=
    match (cs.drop run.length).head? with
    | some c => isPySpace c
    | none => false
  if 3 ≤ run.length ∧ nextIsWs = true then some run
  else none

/-- `str.split()`: split on whitespace runs, dropping empty groups. -/
def pySplitWs (cs : List Char) : List (List Char) :=
  (cs.foldr (fun c acc =>
    if isPySpace c then [] :: acc
    else
      match acc with
      | [] => [[c]]
      | g :: gs => (c :: g) :: gs) []).filter (fun g => !g.isEmpty)

/-- `textract_service._extract_product_code`: ordered regex patterns, then
the first word when it has ≥ 3 characters, then the first 20 characters. -/
def extract_product_code (description : String) : String :=
  if description.isEmpty then ""
  else
    match findParenCode description.data with
    | some g => String.mk g
    | none =>
      match findRefCode description.data with
      | some g => String.mk g
      | none =>
        match findHyphenCode description.data with
        | some g => String.mk g
        | none =>
          match findLeadCode description.data with
          | some g => String.mk g
          | none =>
            match (pySplitWs description.data).head? with
            | some w =>
              if 3 ≤ w.length then String.mk w
              else String.mk (description.data.take 20)
            | none => String.mk (description.data.take 20)

/-- `textract_service._clean_reference`: strip a leading `\d+\s+` run. -/
def clean_reference (r : Option String) : Option String :=
  match r with
  | none => none
  | some s =>
    if s.isEmpty then none
    else
      let st := pyStrip s.data
      let ds := st.takeWhile Char.isDigit
      let cleaned :=
        if ds ≠ [] ∧ (st.drop ds.length).takeWhile isPySpace ≠ [] then
          (st.drop ds.length).dropWhile isPySpace
        else st
      if cleaned.isEmpty then none else some (String.mk cleaned)

/-- `textract_service._parse_colombian_invoice_line`.  Rows come from
`_parse_table`, so every cell is a string (never `None`). -/
def parse_colombian_invoice_line (row : List String) (rowIndex : ℕ) : LineItem :=
  let clean_row := row.map (fun s => String.mk (pyStrip s.data))
  if clean_row.length < 4 then {}
  else
    let numIdx := (clean_row.enum.filter (fun p => is_numeric p.2)).map
      (fun p => p.1)
    if 3 ≤ numIdx.length then
      let qty_idx := numIdx.getD (numIdx.length - 3) 0
      let price_idx := numIdx.getD (numIdx.length - 2) 0
      let subtotal_idx := numIdx.getD (numIdx.length - 1) 0
      let dparts0 := clean_row.take qty_idx
      let hasItemNum :=
        match dparts0.head? with
        | some w => !w.isEmpty && w.data.all Char.isDigit
        | none => false
      let dparts := if hasItemNum then dparts0.tail else dparts0
      let full_description := String.intercalate " " dparts
      -- `item_num or row_index`: `0` is falsy in Python
      let finalNum :=
        if hasItemNum then
          let k := digitsToNat ((dparts0.head?.getD "").data)
          if k = 0 then rowIndex else k
        else rowIndex
      { item_number := some finalNum
        product_code := some (extract_product_code full_description)
        description := some full_description
        reference := clean_reference clean_row.head?
        unit_measure := some (detect_unit_from_text full_description)
        quantity := textract_parse_decimal (clean_row.getD qty_idx "")
        unit_price := textract_parse_decimal (clean_row.getD price_idx "")
        subtotal := textract_parse_decimal (clean_row.getD subtotal_idx "") }
    else
      { item_number := some rowIndex
        product_code := clean_row.head?
        description := some (String.intercalate " "
          ((clean_row.drop 1).take (clean_row.length - 4)))
        reference := clean_row.head?
        unit_measure := some (detect_unit_from_text
          (String.intercalate " " clean_row))
        quantity := textract_parse_decimal (clean_row.getD (clean_row.length - 3) "")
        unit_price := textract_parse_decimal (clean_row.getD (clean_row.length - 2) "")
        subtotal := textract_parse_decimal (clean_row.getD (clean_row.length - 1) "") }

/-- `max(tables, key=lambda t: t['row_count'])`: first maximal table wins. -/
def pickMainTable : List TableData → Option TableData
  | [] => none
  | t :: ts =>
    some (ts.foldl (fun best x => if best.row_count < x.row_count then x else best) t)

/-- `textract_service._extract_line_items`.  The loop over the main table
skips the header row and keeps rows with ≥ 3 cells whose parsed item has a
truthy description, quantity and unit price (the per-row `try` is total on
typed rows).  When no item survives, the code calls
`self._extract_items_from_text_lines(lines)` — a method that is defined
nowhere in the repository — so Python raises `AttributeError`; the
hard-coded mock-item fallback below that call is unreachable. -/
def extract_line_items (tables : List TableData) (_lines : List String) :
    Except String (List LineItem) :=
  let items :=
    match pickMainTable tables with
    | some mt =>
      (mt.rows.enum.filter (fun p => p.1 ≠ 0)).filterMap (fun p =>
        if 3 ≤ p.2.length then
          let item := parse_colombian_invoice_line p.2 p.1
          if truthyStr item.description && truthyQ item.quantity &&
              truthyQ item.unit_price then some item
          else none
        else none)
    | none => []
  if items.isEmpty then
    Except.error "AttributeError: _extract_items_from_text_lines is not defined"
  else Except.ok items

/-- C8: line-item extraction cannot fall back to the raw text lines.  With no
table at all — and likewise with a table whose parsing yields zero items
(here a header-only table) — the code reaches
`self._extract_items_from_text_lines(lines)`, a method defined nowhere in
the repository, and raises `AttributeError` instead of returning a result. -/
theorem C8_text_fallback_is_missing :
    extract_line_items [] ["FACTURA PMB1234", "CHANCLA RAJADO DAMA 1 105000 105000"]
      = Except.error "AttributeError: _extract_items_from_text_lines is not defined" ∧
    extract_line_items [{ rows := [["a", "b", "c", "d"]], row_count := 1, col_count := 4 }] []
      = Except.error "AttributeError: _extract_items_from_text_lines is not defined" := by
  constructor
  · rfl
  · rfl
